import Mathlib

/-!
Verification of the Nexar asset-download pipeline
(`electronics/scripts/nexar_download.py`).

The Python source is shallowly embedded below.  Python dictionaries with
optional string fields are modelled as Lean structures whose string fields
use `""` for "missing or empty": every access in the source goes through
Python truthiness (`if best.get("url")`, `doc.get("name") or ...`), under
which `None`, a missing key, and `""` behave identically, so this collapse
is faithful.  Network and filesystem effects are modelled by explicit
oracle/state parameters; functions that can raise return `Except`.
-/

set_option autoImplicit false

namespace Nexar

/-- A document reference, from the `{name url}` dictionaries produced by the
GraphQL query (`bestDatasheet` and the members of
`documentCollections[].documents`). `""` stands for a missing/null/empty
field. -/
structure DocRef where
  name : String
  url : String
deriving DecidableEq

/-- One entry of `documentCollections`: a collection name plus its ordered
document list. -/
structure DocCollection where
  name : String
  documents : List DocRef
deriving DecidableEq

/-- The `cad` sub-dictionary, restricted to the two fields the script reads
(`hasKicad`, `downloadUrlKicad`). -/
structure CadInfo where
  hasKicad : Bool
  downloadUrlKicad : String
deriving DecidableEq

/-- The part dictionary returned by `fetch_part`, restricted to the fields
the script reads afterwards.  `sellers` is the list of seller company names
(`sellers[].company.name`, with `""` for a missing name, matching
`(seller or {}).get("company") or {}` followed by `.get("name", "")`). -/
structure PartRecord where
  mpn : String
  sellers : List String
  bestDatasheet : Option DocRef
  documentCollections : List DocCollection
  cad : Option CadInfo
deriving DecidableEq

/-- Test whether `pat` is a prefix of `l` (on character lists). -/
def startsWithChars : List Char → List Char → Bool
  | [], _ => true
  | _ :: _, [] => false
  | p :: ps, c :: cs => p = c && startsWithChars ps cs

/-- Test whether `pat` occurs as a contiguous subsequence of `l`. -/
def containsChars (pat : List Char) : List Char → Bool
  | [] => startsWithChars pat []
  | c :: cs => startsWithChars pat (c :: cs) || containsChars pat cs

/-- Python `str.lower()`: lowercase each character.  (ASCII case mapping; the only
pattern searched for, `"datasheet"`, and the only compared constant,
`"digikey"`, are ASCII, for which this agrees with Python.) -/
def lowerStr (s : String) : String :=
  String.mk (s.data.map Char.toLower)

/-- Python `str.strip()`: drop leading and trailing whitespace. -/
def stripStr (s : String) : String :=
  String.mk
    (((s.data.dropWhile Char.isWhitespace).reverse.dropWhile Char.isWhitespace).reverse)

/-- The test `"datasheet" in name.lower()` — case-insensitive substring test. -/
def hasDatasheetWord (name : String) : Bool :=
  containsChars "datasheet".toList (lowerStr name).toList

/-- The effective display name of a document in a collection:
`doc.get("name") or collection.get("name") or "Document"`. -/
def effName (collName : String) (d : DocRef) : String :=
  if d.name ≠ "" then d.name else if collName ≠ "" then collName else "Document"

/-- Inner loop of `pick_datasheet`: scan the documents of one collection,
carrying the `seen` URL set (modelled as a list, used only via membership).
Returns the selected reference (if any) together with the updated `seen`. -/
def scanDocs (collName : String) : List DocRef → List String →
    Option DocRef × List String
  | [], seen => (none, seen)
  | d :: rest, seen =>
    if d.url = "" ∨ d.url ∈ seen then
      scanDocs collName rest seen
    else
      let name := effName collName d
      if hasDatasheetWord name then
        (some ⟨name, d.url⟩, d.url :: seen)
      else
        scanDocs collName rest (d.url :: seen)

/-- Outer loop of `pick_datasheet`: scan collections in order, threading the
`seen` URL set across collections. -/
def scanCollections : List DocCollection → List String → Option DocRef
  | [], _ => none
  | c :: rest, seen =>
    match scanDocs c.name c.documents seen with
    | (some r, _) => some r
    | (none, seen') => scanCollections rest seen'

/-- The function `pick_datasheet(part)`.  The `best.get("url")` truthiness test becomes a
`≠ ""` test on the (defaulted) best reference. -/
def pick_datasheet (part : PartRecord) : Option DocRef :=
  let best := part.bestDatasheet.getD ⟨"", ""⟩
  if best.url ≠ "" then
    some ⟨if best.name ≠ "" then best.name else "Datasheet", best.url⟩
  else
    scanCollections part.documentCollections []

/-- The function `ensure_digikey_seller(part)`: some seller company name, trimmed and
lowercased, equals `"digikey"`. -/
def ensure_digikey_seller (part : PartRecord) : Bool :=
  part.sellers.any (fun n => lowerStr (stripStr n) = "digikey")

/-! ### Filesystem, network, and `download_file` -/

/-- The `USER_AGENT` constant of the script. -/
def USER_AGENT : String := "NESP-NexarDownloader/1.0 (+https://github.com/)"

/-- Abstract filesystem: an association list from path to file content
(sequences of bytes as `Nat`s), plus the directories created so far.
Insertion shadows, so `lookup` sees the newest write. -/
structure FS where
  files : List (String × List Nat)
  dirs : List String
deriving DecidableEq

/-- Content of the file at `p`, `none` when it does not exist. -/
def FS.lookup (fs : FS) (p : String) : Option (List Nat) :=
  fs.files.lookup p

/-- Result of one `urllib.request.urlopen` GET: either the connection attempt
itself raises, or it yields a response from which `chunks` are read
successfully, followed by a mid-stream read error iff `readError`. -/
inductive Net where
  | connectError (msg : String)
  | ok (chunks : List (List Nat)) (readError : Bool)
deriving DecidableEq

/-- Observable outcome of one `download_file` call: the returned value
(`.ok true` = downloaded, `.ok false` = already up to date) or the raised
`RuntimeError`, the filesystem afterwards, and the number of GET requests
issued. -/
structure DownloadResult where
  result : Except String Bool
  fs : FS
  transfers : Nat

/-- The function `download_file(url, destination, overwrite=...)`.  `net` is the network
oracle for the GET on the url; `parentDir` stands for `destination.parent`.
`destination.open("wb")` runs only after `urlopen` returns, and truncates;
on a mid-stream error the chunks read before it have been written. -/
def download_file (net : Net) (fs : FS) (dest parentDir : String)
    (overwrite : Bool := false) : DownloadResult :=
  if (fs.lookup dest).isSome ∧ ¬overwrite ∧ 0 < ((fs.lookup dest).getD []).length then
    ⟨.ok false, fs, 0⟩
  else
    let fs1 : FS := { fs with dirs := parentDir :: fs.dirs }
    match net with
    | .connectError msg =>
      ⟨.error ("Failed to download: " ++ msg), fs1, 1⟩
    | .ok chunks readError =>
      let fs2 : FS := { fs1 with files := (dest, chunks.flatten) :: fs1.files }
      if readError then ⟨.error "Failed to download: read error", fs2, 1⟩
      else ⟨.ok true, fs2, 1⟩

/-! ### Credential acquisition -/

/-- Headers built by `http_post_json`: the `Authorization` header is added
only when the token is truthy (non-empty). -/
def httpPostJsonHeaders (token : String) : List (String × String) :=
  [("Content-Type", "application/json"), ("User-Agent", USER_AGENT)] ++
    (if token ≠ "" then [("Authorization", "Bearer " ++ token)] else [])

/-- Extraction by `fetch_token` of `access_token` from the token endpoint's
JSON response (`""` models a missing, null, or empty field): raises
`RuntimeError` when falsy. -/
def fetch_token_extract (accessToken : String) : Except String String :=
  if accessToken = "" then .error "Failed to obtain token from Nexar"
  else .ok accessToken

/-- Credential acquisition in `main` (the `token = args.token; if not token:
...` block).  `""` models an absent `--token`/`--client-id`/`--client-secret`
(argparse defaults are `None`, and every check is by truthiness).
`respAccessToken` is the token endpoint oracle.  Returns the credential or
the fatal startup error, paired with whether the token endpoint was called. -/
def acquire (token clientId clientSecret respAccessToken : String) :
    Except String String × Bool :=
  if token = "" then
    if clientId = "" ∨ clientSecret = "" then
      (.error "Either --token or both --client-id/--client-secret must be provided.",
        false)
    else
      (fetch_token_extract respAccessToken, true)
  else
    (.ok (stripStr token), false)

/-! ### Orchestrator (`main`'s loop) -/

/-- The `PartSpec` dataclass. -/
structure PartSpec where
  mpn : String
  folder : String
  description : String
deriving DecidableEq

/-- Per-entry oracles: the outcome of `fetch_part` (`.error` summarizes any
exception raised by the query: transport error, error payload, or empty
result set), the outcome of `target_dir.mkdir` (which can raise `OSError`),
and the network oracles for the datasheet and CAD GETs. -/
structure EntryEnv where
  fetch : Except String PartRecord
  mkdirTarget : Except String Unit
  dsNet : Net
  cadNet : Net

/-- Per-asset outcome as printed by the loop. -/
inductive AssetOutcome where
  | fetched
  | alreadyPresent
  | unavailable
  | skipped
  | failed (msg : String)
deriving DecidableEq

/-- Map a `download_file` result to the printed status
(`"downloaded" if changed else "already up to date"`, or the caught
exception message). -/
def syncOutcome : Except String Bool → AssetOutcome
  | .ok true => .fetched
  | .ok false => .alreadyPresent
  | .error msg => .failed msg

/-- Per-entry report, mirroring the two shapes the loop can print: the
fetch-failure message, or the full set of per-asset outcomes. -/
inductive Report where
  | fetchFailed (mpn msg : String)
  | processed (mpn : String) (digikeyWarning : Bool) (datasheet cad : AssetOutcome)
deriving DecidableEq

/-- Record of one `download_file` invocation made by the loop, with the
`overwrite` argument it passed (the source passes none, so the default
`False` applies at both call sites). -/
structure SyncCall where
  url : String
  dest : String
  overwrite : Bool
deriving DecidableEq

/-- Everything after the first occurrence of `"://"`, or `none` when there
is no such occurrence. -/
def afterSchemeSep : List Char → Option (List Char)
  | [] => none
  | c :: cs =>
    if startsWithChars "://".toList (c :: cs) then some (cs.drop 2)
    else afterSchemeSep cs

/-- Model of `urllib.parse.urlparse(url).path`: drop the fragment, then the query;
when a scheme separator is present, drop the scheme and network location
(everything up to the next `/`). -/
def urlPathOf (url : String) : String :=
  let base := (url.data.takeWhile (· ≠ '#')).takeWhile (· ≠ '?')
  match afterSchemeSep base with
  | none => String.mk base
  | some rest => String.mk (rest.dropWhile (· ≠ '/'))

/-- Model of `pathlib.Path(p).suffix`: the dot-extension of the final path component
(`name[i:]` for `i = name.rfind('.')` when `0 < i < len(name) - 1`, else
empty: dotless names, dot-final names, and bare dotfiles have no suffix). -/
def pathSuffix (p : String) : String :=
  let comp := (p.data.reverse.takeWhile (· ≠ '/')).reverse
  let revComp := comp.reverse
  let pre := revComp.takeWhile (· ≠ '.')
  if pre.length = revComp.length then ""
  else if pre.length = 0 then ""
  else if pre.length + 1 = revComp.length then ""
  else String.mk ('.' :: pre.reverse)

/-- One iteration of `main`'s loop for entry `spec` under oracles `env`,
filesystem `fs`, output root `baseDir` and the `--skip-cad` flag.
`.error` means an exception escaped the loop body (only `mkdir` can raise
outside the two `try` blocks), aborting the whole run.  Otherwise: the
report, the filesystem afterwards, the `download_file` invocations made,
and whether the trailing `time.sleep(0.5)` ran (the fetch-failure branch
`continue`s past it). -/
def processEntry (baseDir : String) (skipCad : Bool) (spec : PartSpec)
    (env : EntryEnv) (fs : FS) :
    Except String (Report × FS × List SyncCall × Bool) :=
  match env.fetch with
  | .error msg => .ok (.fetchFailed spec.mpn msg, fs, [], false)
  | .ok part =>
    let digiWarning := !ensure_digikey_seller part
    let targetDir := baseDir ++ "/" ++ spec.folder
    match env.mkdirTarget with
    | .error msg => .error msg
    | .ok () =>
      let fsm : FS := { fs with dirs := targetDir :: fs.dirs }
      let dsStep : AssetOutcome × FS × List SyncCall :=
        match pick_datasheet part with
        | none => (.unavailable, fsm, [])
        | some ds =>
          let filePath := targetDir ++ "/" ++ spec.mpn ++ " datasheet.pdf"
          let r := download_file env.dsNet fsm filePath targetDir
          (syncOutcome r.result, r.fs, [⟨ds.url, filePath, false⟩])
      let cadStep : AssetOutcome × FS × List SyncCall :=
        if skipCad then (.skipped, dsStep.2.1, [])
        else
          let cadInfo := part.cad.getD ⟨false, ""⟩
          if cadInfo.hasKicad ∧ cadInfo.downloadUrlKicad ≠ "" then
            let ext0 := pathSuffix (urlPathOf cadInfo.downloadUrlKicad)
            let ext := if ext0 = "" then ".zip" else ext0
            let cadPath := targetDir ++ "/" ++ spec.mpn ++ " kicad" ++ ext
            let r := download_file env.cadNet dsStep.2.1 cadPath targetDir
            (syncOutcome r.result, r.fs, [⟨cadInfo.downloadUrlKicad, cadPath, false⟩])
          else (.unavailable, dsStep.2.1, [])
      .ok (.processed spec.mpn digiWarning dsStep.1 cadStep.1,
        cadStep.2.1, dsStep.2.2 ++ cadStep.2.2, true)

/-- Observable outcome of a run of the loop: reports for the entries
processed, the number of pacing sleeps performed, the final filesystem, all
`download_file` invocations, and the uncaught exception if the run aborted
(in which case the remaining entries were never attempted). -/
structure RunResult where
  reports : List Report
  sleeps : Nat
  fs : FS
  calls : List SyncCall
  aborted : Option String

/-- The `for spec in PARTS:` loop of `main` over an arbitrary catalog. -/
def runAll (baseDir : String) (skipCad : Bool) :
    List (PartSpec × EntryEnv) → FS → RunResult
  | [], fs => ⟨[], 0, fs, [], none⟩
  | (spec, env) :: rest, fs =>
    match processEntry baseDir skipCad spec env fs with
    | .error msg => ⟨[], 0, fs, [], some msg⟩
    | .ok (report, fs', calls, slept) =>
      let r := runAll baseDir skipCad rest fs'
      ⟨report :: r.reports, (if slept then 1 else 0) + r.sleeps, r.fs,
        calls ++ r.calls, r.aborted⟩

/-- The command-line configuration surface defined by `argparse` in `main`:
`--output`, `--token`, `--client-id`, `--client-secret`, `--skip-cad`
(string options use `""` for "not supplied"). -/
structure Config where
  output : String
  token : String
  clientId : String
  clientSecret : String
  skipCad : Bool

/-- The function `main`: acquire the credential (fatal on failure, nonzero exit), then run
the loop over the catalog. -/
def mainRun (cfg : Config) (respAccessToken : String)
    (entries : List (PartSpec × EntryEnv)) (fs : FS) :
    Except String RunResult :=
  match (acquire cfg.token cfg.clientId cfg.clientSecret respAccessToken).1 with
  | .error msg => .error msg
  | .ok _ =>
    let fs0 : FS := { fs with dirs := cfg.output :: fs.dirs }
    .ok (runAll cfg.output cfg.skipCad entries fs0)

/-! ### Spec-side characterization of the fallback scan

The following definitions follow the wording of the spec (§4.3 step 2 /
claims C5, C6), to be compared with `pick_datasheet` above: the documents
are flattened in scan order, documents with an empty or already-seen URL
are skipped, and the first remaining document whose effective name contains
"datasheet" is returned. -/

/-- The flattened scan order: collections in their given order, documents in
their given order within each, each paired as (effective name, url). -/
def flatDocs (part : PartRecord) : List (String × String) :=
  part.documentCollections.flatMap
    (fun c => c.documents.map (fun d => (effName c.name d, d.url)))

/-- Drop documents whose URL is empty or already seen; keep first occurrences. -/
def dedupByUrl : List (String × String) → List String → List (String × String)
  | [], _ => []
  | (n, u) :: rest, seen =>
    if u = "" ∨ u ∈ seen then dedupByUrl rest seen
    else (n, u) :: dedupByUrl rest (u :: seen)

/-- The `seen` set accumulated by a scan over `l` starting from `seen`. -/
def seenAfter : List (String × String) → List String → List String
  | [], seen => seen
  | (_, u) :: rest, seen =>
    if u = "" ∨ u ∈ seen then seenAfter rest seen
    else seenAfter rest (u :: seen)

/-- Spec-side selector: first non-skipped flattened document whose effective
name contains "datasheet", as a `DocRef`. -/
def fallbackSpec (part : PartRecord) : Option DocRef :=
  ((dedupByUrl (flatDocs part) []).find? (fun p => hasDatasheetWord p.1)).map
    (fun p => ⟨p.1, p.2⟩)

/-- The per-collection document list in flattened form. -/
def collPairs (c : DocCollection) : List (String × String) :=
  c.documents.map (fun d => (effName c.name d, d.url))

theorem scanDocs_fst (cn : String) (docs : List DocRef) (seen : List String) :
    (scanDocs cn docs seen).1 =
      ((dedupByUrl (docs.map (fun d => (effName cn d, d.url))) seen).find?
        (fun p => hasDatasheetWord p.1)).map (fun p => DocRef.mk p.1 p.2) := by
  induction docs generalizing seen with
  | nil => rfl
  | cons d rest ih =>
    simp only [scanDocs, List.map_cons, dedupByUrl]
    by_cases hskip : d.url = "" ∨ d.url ∈ seen
    · simp [hskip, ih]
    · simp only [if_neg hskip]
      by_cases hmatch : hasDatasheetWord (effName cn d)
      · simp [hmatch, List.find?]
      · simp only [List.find?]
        simp [hmatch, ih]

theorem scanDocs_snd (cn : String) (docs : List DocRef) (seen : List String)
    (h : (scanDocs cn docs seen).1 = none) :
    (scanDocs cn docs seen).2 =
      seenAfter (docs.map (fun d => (effName cn d, d.url))) seen := by
  induction docs generalizing seen with
  | nil => rfl
  | cons d rest ih =>
    simp only [scanDocs, List.map_cons, seenAfter] at h ⊢
    by_cases hskip : d.url = "" ∨ d.url ∈ seen
    · simp only [if_pos hskip] at h ⊢
      exact ih seen h
    · simp only [if_neg hskip] at h ⊢
      by_cases hmatch : hasDatasheetWord (effName cn d)
      · simp [hmatch] at h
      · simp only [if_neg hmatch] at h ⊢
        exact ih _ h

theorem dedupByUrl_append (l₁ l₂ : List (String × String)) (seen : List String) :
    dedupByUrl (l₁ ++ l₂) seen =
      dedupByUrl l₁ seen ++ dedupByUrl l₂ (seenAfter l₁ seen) := by
  induction l₁ generalizing seen with
  | nil => rfl
  | cons p rest ih =>
    obtain ⟨n, u⟩ := p
    simp only [List.cons_append, dedupByUrl, seenAfter]
    by_cases hskip : u = "" ∨ u ∈ seen
    · simp [hskip, ih]
    · simp [hskip, ih]

theorem scanCollections_spec (cs : List DocCollection) (seen : List String) :
    scanCollections cs seen =
      ((dedupByUrl (cs.flatMap collPairs) seen).find?
        (fun p => hasDatasheetWord p.1)).map (fun p => DocRef.mk p.1 p.2) := by
  induction cs generalizing seen with
  | nil => rfl
  | cons c rest ih =>
    rw [List.flatMap_cons, dedupByUrl_append, List.find?_append]
    simp only [scanCollections, collPairs]
    have hfst := scanDocs_fst c.name c.documents seen
    rcases hscan : scanDocs c.name c.documents seen with ⟨res, seen'⟩
    rw [hscan] at hfst
    cases res with
    | some r =>
      rcases hf : (dedupByUrl (c.documents.map (fun d => (effName c.name d, d.url)))
          seen).find? (fun p => hasDatasheetWord p.1) with _ | p
      · rw [hf] at hfst; simp at hfst
      · rw [hf] at hfst
        simp only [Option.map_some] at hfst
        simp [hf, hfst]
    | none =>
      have hnone : (dedupByUrl (c.documents.map (fun d => (effName c.name d, d.url)))
          seen).find? (fun p => hasDatasheetWord p.1) = none := by
        rcases hf : (dedupByUrl (c.documents.map (fun d => (effName c.name d, d.url)))
            seen).find? (fun p => hasDatasheetWord p.1) with _ | p
        · exact hf
        · rw [hf] at hfst; simp at hfst
      have hsnd := scanDocs_snd c.name c.documents seen (by rw [hscan])
      rw [hscan] at hsnd
      simp only at hsnd
      simp only [hnone, Option.none_or]
      rw [← hsnd]
      exact ih seen'

end Nexar

namespace Nexar

/-! ### Selection lemmas -/

theorem pick_datasheet_fallback (part : PartRecord)
    (h : (part.bestDatasheet.getD ⟨"", ""⟩).url = "") :
    pick_datasheet part = fallbackSpec part := by
  rw [pick_datasheet, fallbackSpec]
  simp only [h, ne_eq, not_true_eq_false, if_false]
  have hflat : flatDocs part = part.documentCollections.flatMap collPairs := rfl
  rw [scanCollections_spec, ← hflat]

theorem mem_dedupByUrl (l : List (String × String)) (seen : List String)
    (p : String × String) (hp : p ∈ dedupByUrl l seen) :
    p.2 ≠ "" ∧ p.2 ∉ seen ∧ l.find? (fun q => q.2 = p.2) = some p := by
  induction l generalizing seen with
  | nil => simp [dedupByUrl] at hp
  | cons q rest ih =>
    obtain ⟨n, u⟩ := q
    simp only [dedupByUrl] at hp
    by_cases hskip : u = "" ∨ u ∈ seen
    · rw [if_pos hskip] at hp
      obtain ⟨h1, h2, h3⟩ := ih seen hp
      have hne : u ≠ p.2 := by
        rintro rfl
        rcases hskip with h | h
        · exact h1 h
        · exact h2 h
      refine ⟨h1, h2, ?_⟩
      simpa [List.find?_cons, hne] using h3
    · rw [if_neg hskip] at hp
      push_neg at hskip
      rcases List.mem_cons.mp hp with rfl | hp'
      · exact ⟨hskip.1, hskip.2, by simp [List.find?_cons]⟩
      · obtain ⟨h1, h2, h3⟩ := ih (u :: seen) hp'
        simp only [List.mem_cons, not_or] at h2
        refine ⟨h1, h2.2, ?_⟩
        have hne : u ≠ p.2 := fun h => h2.1 h.symm
        simpa [List.find?_cons, hne] using h3

end Nexar

namespace Nexar

/-! ### Claims C4, C5, C6 -/

/-- C4.  Selection priority: whenever the part's "best datasheet" reference
has a non-empty URL, `pick_datasheet` returns that reference verbatim, with
the display name falling back to `"Datasheet"` when the reference's own name
is empty — regardless of what the document collections contain. -/
theorem c4_best_datasheet_priority (part : PartRecord) (best : DocRef)
    (hbest : part.bestDatasheet = some best) (hurl : best.url ≠ "") :
    pick_datasheet part =
      some ⟨if best.name = "" then "Datasheet" else best.name, best.url⟩ := by
  rw [pick_datasheet, hbest]
  simp only [Option.getD_some, if_pos hurl]
  by_cases hname : best.name = "" <;> simp [hname]

/-- Witness for C4 at a concrete part that also has a document named
"Datasheet Rev B" in its collections: the best reference wins. -/
theorem c4_best_datasheet_priority_witness :
    pick_datasheet
        ⟨"X", [], some ⟨"", "http://x/ds.pdf"⟩,
          [⟨"Coll", [⟨"Datasheet Rev B", "http://y"⟩]⟩], none⟩ =
      some ⟨"Datasheet", "http://x/ds.pdf"⟩ := by
  have h := c4_best_datasheet_priority
    ⟨"X", [], some ⟨"", "http://x/ds.pdf"⟩,
      [⟨"Coll", [⟨"Datasheet Rev B", "http://y"⟩]⟩], none⟩
    ⟨"", "http://x/ds.pdf"⟩ rfl (by decide)
  simpa using h

/-- C5.  Fallback scan: when there is no usable "best datasheet" URL,
`pick_datasheet` equals the spec-side selector `fallbackSpec`: collections
are scanned in order, documents in order within each, documents with an
empty or already-seen URL are skipped, and the first remaining document
whose effective name (its own name, or its collection's name when empty)
contains "datasheet" case-insensitively is returned; `none` if no such
document exists. -/
theorem c5_fallback_scan (part : PartRecord)
    (h : (part.bestDatasheet.getD ⟨"", ""⟩).url = "") :
    pick_datasheet part = fallbackSpec part :=
  pick_datasheet_fallback part h

/-- Witness for C5 at the spec's own example: two collections, the first
containing "Schematic" and "Footprint", the second containing "Datasheet";
the selector returns the "Datasheet" reference from the second collection. -/
theorem c5_fallback_scan_witness :
    pick_datasheet
        ⟨"X", [], none,
          [⟨"C1", [⟨"Schematic", "u1"⟩, ⟨"Footprint", "u2"⟩]⟩,
           ⟨"C2", [⟨"Datasheet", "u3"⟩]⟩], none⟩ =
      fallbackSpec
        ⟨"X", [], none,
          [⟨"C1", [⟨"Schematic", "u1"⟩, ⟨"Footprint", "u2"⟩]⟩,
           ⟨"C2", [⟨"Datasheet", "u3"⟩]⟩], none⟩ ∧
    pick_datasheet
        ⟨"X", [], none,
          [⟨"C1", [⟨"Schematic", "u1"⟩, ⟨"Footprint", "u2"⟩]⟩,
           ⟨"C2", [⟨"Datasheet", "u3"⟩]⟩], none⟩ =
      some ⟨"Datasheet", "u3"⟩ :=
  ⟨c5_fallback_scan _ (by decide), by decide⟩

/-- C6.  De-duplication: in the fallback scan, whatever reference is
selected is the *first* document in the flattened scan order carrying its
URL (and that URL is non-empty) — any later document sharing the same URL,
even in another collection and under another name, was skipped. -/
theorem c6_dedup_first_occurrence (part : PartRecord) (r : DocRef)
    (hbest : (part.bestDatasheet.getD ⟨"", ""⟩).url = "")
    (hpick : pick_datasheet part = some r) :
    r.url ≠ "" ∧ (flatDocs part).find? (fun q => q.2 = r.url) = some (r.name, r.url) := by
  rw [pick_datasheet_fallback part hbest, fallbackSpec] at hpick
  rcases hf : (dedupByUrl (flatDocs part) []).find? (fun p => hasDatasheetWord p.1)
    with _ | p
  · rw [hf] at hpick; exact absurd hpick (by simp)
  · rw [hf] at hpick
    simp only [Option.map_some'] at hpick
    have hmem := List.mem_of_find?_eq_some hf
    obtain ⟨h1, _, h3⟩ := mem_dedupByUrl _ _ _ hmem
    cases hpick
    exact ⟨h1, h3⟩

/-- Witness for C6: two documents in different collections share the URL
`"u"` with different names; the selected reference is the first-encountered
one, "Datasheet v1". -/
theorem c6_dedup_first_occurrence_witness :
    ("u" : String) ≠ "" ∧
    (flatDocs ⟨"X", [], none,
        [⟨"A", [⟨"Datasheet v1", "u"⟩]⟩, ⟨"B", [⟨"Datasheet v2", "u"⟩]⟩],
        none⟩).find? (fun q => q.2 = "u") = some ("Datasheet v1", "u") := by
  have h := c6_dedup_first_occurrence
    ⟨"X", [], none,
      [⟨"A", [⟨"Datasheet v1", "u"⟩]⟩, ⟨"B", [⟨"Datasheet v2", "u"⟩]⟩], none⟩
    ⟨"Datasheet v1", "u"⟩ (by decide) (by decide)
  simpa using h

end Nexar

namespace Nexar

/-! ### `download_file` lemmas and claims C3, C10 -/

theorem download_file_already_present (net : Net) (fs : FS) (dest parentDir : String)
    (content : List Nat) (hc : fs.lookup dest = some content)
    (hlen : 0 < content.length) :
    download_file net fs dest parentDir false = ⟨.ok false, fs, 0⟩ := by
  rw [download_file, if_pos]
  refine ⟨?_, by simp, ?_⟩
  · rw [hc]; rfl
  · rw [hc]; simpa using hlen

theorem download_file_fresh_success (chunks : List (List Nat)) (fs : FS)
    (dest parentDir : String) (habs : fs.lookup dest = none) :
    download_file (.ok chunks false) fs dest parentDir false =
      ⟨.ok true, ⟨(dest, chunks.flatten) :: fs.files, parentDir :: fs.dirs⟩, 1⟩ := by
  rw [download_file, if_neg]
  · rfl
  · rw [habs]; simp

/-- C3 (amended).  Synchronizer idempotence: (1) with `overwrite=false` and
an existing non-zero-size destination, the call reports already-present
(`.ok false`), performs no network transfer, and leaves the filesystem —
hence the file's content — unchanged; so no existing non-empty file is ever
overwritten without the override flag.  (2) Starting from an absent
destination, a successful download whose body is *non-empty* performs one
transfer, and a second call with `overwrite=false` (any network oracle)
reports already-present with zero transfers and an unchanged filesystem —
exactly one transfer across the two calls.  (The non-empty proviso is
forced by `c3_counterexample`.) -/
theorem c3_sync_idempotence_amended (net net' : Net) (fs : FS)
    (dest parentDir : String) (content : List Nat) (chunks : List (List Nat)) :
    (fs.lookup dest = some content → 0 < content.length →
      download_file net fs dest parentDir false = ⟨.ok false, fs, 0⟩) ∧
    (fs.lookup dest = none → chunks.flatten ≠ [] →
      (download_file (.ok chunks false) fs dest parentDir false).result = .ok true ∧
      (download_file (.ok chunks false) fs dest parentDir false).transfers = 1 ∧
      download_file net' (download_file (.ok chunks false) fs dest parentDir false).fs
          dest parentDir false =
        ⟨.ok false, (download_file (.ok chunks false) fs dest parentDir false).fs, 0⟩) := by
  constructor
  · intro hc hlen
    exact download_file_already_present net fs dest parentDir content hc hlen
  · intro habs hne
    rw [download_file_fresh_success chunks fs dest parentDir habs]
    refine ⟨rfl, rfl, ?_⟩
    apply download_file_already_present
    · show List.lookup dest ((dest, chunks.flatten) :: fs.files) = some chunks.flatten
      simp [List.lookup]
    · exact List.length_pos.mpr hne

/-- Witness for C3 (amended): a non-empty existing file is reported
already-present untouched, and a fresh one-byte download is not re-fetched
by a second call. -/
theorem c3_sync_idempotence_amended_witness :
    download_file (.ok [[7]] false) ⟨[("out/a.pdf", [1])], []⟩ "out/a.pdf" "out" false
      = ⟨.ok false, ⟨[("out/a.pdf", [1])], []⟩, 0⟩ ∧
    download_file (.connectError "x")
        (download_file (.ok [[7]] false) ⟨[], []⟩ "out/a.pdf" "out" false).fs
        "out/a.pdf" "out" false
      = ⟨.ok false,
          (download_file (.ok [[7]] false) ⟨[], []⟩ "out/a.pdf" "out" false).fs, 0⟩ :=
  ⟨(c3_sync_idempotence_amended (.ok [[7]] false) (.connectError "x")
      ⟨[("out/a.pdf", [1])], []⟩ "out/a.pdf" "out" [1] [[7]]).1 rfl (by decide),
   ((c3_sync_idempotence_amended (.ok [[7]] false) (.connectError "x")
      ⟨[], []⟩ "out/a.pdf" "out" [1] [[7]]).2 rfl (by decide)).2.2⟩

/-- C3 counterexample: with an empty downloaded body, two successive calls
with `overwrite=false` perform a transfer *each* (the zero-byte file written
by the first call fails the non-zero-size check), refuting "calling it twice
in succession with overwrite=false performs exactly one transfer". -/
theorem c3_counterexample :
    (download_file (.ok [] false) ⟨[], []⟩ "out/a.pdf" "out" false).transfers = 1 ∧
    (download_file (.ok [] false)
        (download_file (.ok [] false) ⟨[], []⟩ "out/a.pdf" "out" false).fs
        "out/a.pdf" "out" false).transfers = 1 ∧
    (download_file (.ok [] false)
        (download_file (.ok [] false) ⟨[], []⟩ "out/a.pdf" "out" false).fs
        "out/a.pdf" "out" false).result = .ok true :=
  ⟨rfl, rfl, rfl⟩

/-- C10.  Connection-failure atomicity: when the GET connection attempt
itself raises (before the destination is opened for writing), the file map
is unchanged — the destination is neither created nor truncated and every
existing file keeps its content; at most the parent directory entry is
newly recorded. -/
theorem c10_connection_failure_atomicity (msg : String) (fs : FS)
    (dest parentDir : String) (overwrite : Bool) :
    (download_file (.connectError msg) fs dest parentDir overwrite).fs.files
      = fs.files ∧
    ((download_file (.connectError msg) fs dest parentDir overwrite).fs.dirs
        = fs.dirs ∨
      (download_file (.connectError msg) fs dest parentDir overwrite).fs.dirs
        = parentDir :: fs.dirs) := by
  rw [download_file]
  by_cases h : (fs.lookup dest).isSome ∧ ¬overwrite ∧ 0 < ((fs.lookup dest).getD []).length
  · rw [if_pos h]; exact ⟨rfl, Or.inl rfl⟩
  · rw [if_neg h]; exact ⟨rfl, Or.inr rfl⟩

/-! ### Claims C7, C9 -/

/-- C7.  Credential acquisition: an explicit (non-empty) token is stripped
and returned as-is with the token endpoint never called; with no token and
an incomplete id/secret pair, acquisition fails fatally without calling the
endpoint; with no token and a complete pair, it fails fatally when the
endpoint's response lacks a non-empty `access_token`. -/
theorem c7_credential_acquisition (tok cid sec resp : String) :
    (tok ≠ "" → acquire tok cid sec resp = (.ok (stripStr tok), false)) ∧
    (tok = "" → cid = "" ∨ sec = "" →
      acquire tok cid sec resp =
        (.error "Either --token or both --client-id/--client-secret must be provided.",
          false)) ∧
    (tok = "" → cid ≠ "" → sec ≠ "" → resp = "" →
      acquire tok cid sec resp = (.error "Failed to obtain token from Nexar", true)) := by
  refine ⟨?_, ?_, ?_⟩
  · intro h; rw [acquire, if_neg h]
  · intro h1 h2; rw [acquire, if_pos h1, if_pos h2]
  · intro h1 h2 h3 h4
    rw [acquire, if_pos h1, if_neg (not_or.mpr ⟨h2, h3⟩), fetch_token_extract,
      if_pos h4]

/-- Witness for C7 at concrete inputs for all three branches. -/
theorem c7_credential_acquisition_witness :
    acquire "  tok " "" "" "" = (.ok "tok", false) ∧
    acquire "" "" "sec" "resp" =
      (.error "Either --token or both --client-id/--client-secret must be provided.",
        false) ∧
    acquire "" "id" "sec" "" = (.error "Failed to obtain token from Nexar", true) := by
  refine ⟨?_, ?_, ?_⟩
  · have h := (c7_credential_acquisition "  tok " "" "" "").1 (by decide)
    rwa [show stripStr "  tok " = "tok" from by decide] at h
  · exact (c7_credential_acquisition "" "" "sec" "resp").2.1 rfl (Or.inl rfl)
  · exact (c7_credential_acquisition "" "id" "sec" "").2.2 rfl (by decide) (by decide) rfl

/-- C9.  A non-empty but whitespace-only explicit token does not fail:
acquisition strips it to `""` and succeeds without calling the token
endpoint, and a query sent with token `""` carries no `Authorization`
header at all (`http_post_json` adds the header only for a truthy token). -/
theorem c9_whitespace_token (tok cid sec resp : String)
    (h1 : tok ≠ "") (h2 : stripStr tok = "") :
    acquire tok cid sec resp = (.ok "", false) ∧
    (httpPostJsonHeaders "").lookup "Authorization" = none := by
  constructor
  · rw [acquire, if_neg h1, h2]
  · rfl

/-- Witness for C9 at the token `"   "`. -/
theorem c9_whitespace_token_witness :
    acquire "   " "id" "sec" "resp" = (.ok "", false) ∧
    (httpPostJsonHeaders "").lookup "Authorization" = none :=
  c9_whitespace_token "   " "id" "sec" "resp" (by decide) (by decide)

end Nexar

namespace Nexar

/-! ### Orchestrator lemmas and claims C1, C2, C8 -/

theorem processEntry_fetch_error (baseDir : String) (skipCad : Bool)
    (spec : PartSpec) (env : EntryEnv) (fs : FS) (msg : String)
    (h : env.fetch = .error msg) :
    processEntry baseDir skipCad spec env fs =
      .ok (.fetchFailed spec.mpn msg, fs, [], false) := by
  rw [processEntry, h]

theorem processEntry_ok_of_mkdir_ok (baseDir : String) (skipCad : Bool)
    (spec : PartSpec) (env : EntryEnv) (fs : FS)
    (h : env.mkdirTarget = .ok ()) :
    ∃ out, processEntry baseDir skipCad spec env fs = .ok out := by
  rw [processEntry]
  cases hf : env.fetch with
  | error msg => exact ⟨_, rfl⟩
  | ok part => rw [h]; exact ⟨_, rfl⟩

theorem processEntry_slept_iff (baseDir : String) (skipCad : Bool)
    (spec : PartSpec) (env : EntryEnv) (fs : FS)
    (out : Report × FS × List SyncCall × Bool)
    (h : processEntry baseDir skipCad spec env fs = .ok out) :
    out.2.2.2 = true ↔ ∃ part, env.fetch = .ok part := by
  rw [processEntry] at h
  cases hf : env.fetch with
  | error msg =>
    rw [hf] at h
    cases h
    simp [hf]
  | ok part =>
    rw [hf] at h
    cases hmk : env.mkdirTarget with
    | error m => rw [hmk] at h; exact absurd h (by simp)
    | ok u =>
      cases u
      rw [hmk] at h
      cases h
      simp [hf]

theorem processEntry_calls_overwrite_false (baseDir : String) (skipCad : Bool)
    (spec : PartSpec) (env : EntryEnv) (fs : FS)
    (out : Report × FS × List SyncCall × Bool)
    (h : processEntry baseDir skipCad spec env fs = .ok out) :
    ∀ c ∈ out.2.2.1, c.overwrite = false := by
  rw [processEntry] at h
  cases hf : env.fetch with
  | error msg =>
    rw [hf] at h
    cases h
    intro c hc
    simp at hc
  | ok part =>
    rw [hf] at h
    cases hmk : env.mkdirTarget with
    | error m => rw [hmk] at h; exact absurd h (by simp)
    | ok u =>
      cases u
      rw [hmk] at h
      cases h
      intro c hc
      simp only [List.mem_append] at hc
      rcases hc with hc | hc
      · revert hc
        cases pick_datasheet part with
        | none => simp
        | some ds =>
          simp only [List.mem_singleton]
          rintro rfl
          rfl
      · revert hc
        by_cases hskip : skipCad
        · simp [hskip]
        · rw [if_neg hskip]
          split
          · simp only [List.mem_singleton]
            rintro rfl
            rfl
          · simp

theorem runAll_no_abort (baseDir : String) (skipCad : Bool)
    (entries : List (PartSpec × EntryEnv)) (fs : FS)
    (h : ∀ e ∈ entries, e.2.mkdirTarget = .ok ()) :
    (runAll baseDir skipCad entries fs).aborted = none ∧
    (runAll baseDir skipCad entries fs).reports.length = entries.length := by
  induction entries generalizing fs with
  | nil => exact ⟨rfl, rfl⟩
  | cons e rest ih =>
    obtain ⟨spec, env⟩ := e
    obtain ⟨out, hout⟩ := processEntry_ok_of_mkdir_ok baseDir skipCad spec env fs
      (h _ (List.mem_cons_self _ _))
    obtain ⟨report, fs', calls, slept⟩ := out
    have hrest := ih fs' (fun e he => h e (List.mem_cons_of_mem _ he))
    rw [runAll, hout]
    exact ⟨hrest.1, by simpa using hrest.2⟩

theorem runAll_calls_overwrite_false (baseDir : String) (skipCad : Bool)
    (entries : List (PartSpec × EntryEnv)) (fs : FS) :
    ∀ c ∈ (runAll baseDir skipCad entries fs).calls, c.overwrite = false := by
  induction entries generalizing fs with
  | nil => intro c hc; simp [runAll] at hc
  | cons e rest ih =>
    obtain ⟨spec, env⟩ := e
    intro c hc
    rw [runAll] at hc
    rcases hout : processEntry baseDir skipCad spec env fs with msg | out
    · rw [hout] at hc; simp at hc
    · rw [hout] at hc
      obtain ⟨report, fs', calls, slept⟩ := out
      simp only [List.mem_append] at hc
      rcases hc with hc | hc
      · exact processEntry_calls_overwrite_false baseDir skipCad spec env fs
          (report, fs', calls, slept) hout c hc
      · exact ih fs' c hc

theorem mainRun_calls_overwrite_false (cfg : Config) (resp : String)
    (entries : List (PartSpec × EntryEnv)) (fs : FS) (run : RunResult)
    (h : mainRun cfg resp entries fs = .ok run) :
    ∀ c ∈ run.calls, c.overwrite = false := by
  rw [mainRun] at h
  rcases hacq : (acquire cfg.token cfg.clientId cfg.clientSecret resp).1 with m | t
  · rw [hacq] at h; exact absurd h (by simp)
  · rw [hacq] at h
    cases h
    exact runAll_calls_overwrite_false cfg.output cfg.skipCad entries _

end Nexar

namespace Nexar

/-- C1 counterexample: the claim says an exception anywhere in steps 1–5 is
caught and every subsequent entry still attempted.  But step 3
(`target_dir.mkdir`) sits outside every `try`: here it raises for entry 1
of 2, the run aborts, and neither entry — in particular not the perfectly
healthy entry 2 — produces a report. -/
theorem c1_counterexample :
    (runAll "out" false
        [(⟨"M1", "f1", "d1"⟩,
            ⟨.ok ⟨"M1", [], some ⟨"DS", "u"⟩, [], none⟩, .error "Permission denied",
              .ok [[7]] false, .ok [[7]] false⟩),
         (⟨"M2", "f2", "d2"⟩,
            ⟨.ok ⟨"M2", [], some ⟨"DS", "u"⟩, [], none⟩, .ok (),
              .ok [[7]] false, .ok [[7]] false⟩)]
        ⟨[], []⟩).reports = [] ∧
    (runAll "out" false
        [(⟨"M1", "f1", "d1"⟩,
            ⟨.ok ⟨"M1", [], some ⟨"DS", "u"⟩, [], none⟩, .error "Permission denied",
              .ok [[7]] false, .ok [[7]] false⟩),
         (⟨"M2", "f2", "d2"⟩,
            ⟨.ok ⟨"M2", [], some ⟨"DS", "u"⟩, [], none⟩, .ok (),
              .ok [[7]] false, .ok [[7]] false⟩)]
        ⟨[], []⟩).aborted = some "Permission denied" :=
  ⟨rfl, rfl⟩

/-- C1 (amended).  Per-entry isolation holds for part resolution (step 1)
and the asset transfers (steps 4–5), whose exceptions are caught and
recorded; but an exception during target-folder creation (step 3) is not
caught and aborts the run.  Provided no entry's folder creation raises, the
run never aborts and every entry — whatever its resolution and transfer
outcomes — produces a report. -/
theorem c1_isolation_amended (baseDir : String) (skipCad : Bool)
    (entries : List (PartSpec × EntryEnv)) (fs : FS)
    (h : ∀ e ∈ entries, e.2.mkdirTarget = .ok ()) :
    (runAll baseDir skipCad entries fs).aborted = none ∧
    (runAll baseDir skipCad entries fs).reports.length = entries.length :=
  runAll_no_abort baseDir skipCad entries fs h

/-- Witness for C1 (amended): entry 1 fails resolution, entry 2's datasheet
transfer fails on connection; the run still completes with one report per
entry. -/
theorem c1_isolation_amended_witness :
    (runAll "out" false
        [(⟨"M1", "f1", "d1"⟩,
            ⟨.error "ResolutionError", .ok (), .ok [[7]] false, .ok [[7]] false⟩),
         (⟨"M2", "f2", "d2"⟩,
            ⟨.ok ⟨"M2", [], some ⟨"DS", "u"⟩, [], none⟩, .ok (),
              .connectError "timeout", .ok [[7]] false⟩)]
        ⟨[], []⟩).aborted = none ∧
    (runAll "out" false
        [(⟨"M1", "f1", "d1"⟩,
            ⟨.error "ResolutionError", .ok (), .ok [[7]] false, .ok [[7]] false⟩),
         (⟨"M2", "f2", "d2"⟩,
            ⟨.ok ⟨"M2", [], some ⟨"DS", "u"⟩, [], none⟩, .ok (),
              .connectError "timeout", .ok [[7]] false⟩)]
        ⟨[], []⟩).reports.length = 2 :=
  c1_isolation_amended "out" false
    [(⟨"M1", "f1", "d1"⟩,
        ⟨.error "ResolutionError", .ok (), .ok [[7]] false, .ok [[7]] false⟩),
     (⟨"M2", "f2", "d2"⟩,
        ⟨.ok ⟨"M2", [], some ⟨"DS", "u"⟩, [], none⟩, .ok (),
          .connectError "timeout", .ok [[7]] false⟩)]
    ⟨[], []⟩
    (by
      intro e he
      rcases List.mem_cons.mp he with rfl | he
      · rfl
      · rcases List.mem_cons.mp he with rfl | he
        · rfl
        · simp at he)

/-- C2 counterexample: for an entry whose part resolution fails, processing
completes with a recorded outcome, yet the loop `continue`s *before*
reaching `time.sleep(0.5)`: no pacing delay is inserted, refuting
"regardless of outcome, including when part resolution fails". -/
theorem c2_counterexample :
    processEntry "out" false ⟨"M1", "f1", "d1"⟩
        ⟨.error "boom", .ok (), .ok [[7]] false, .ok [[7]] false⟩ ⟨[], []⟩
      = .ok (.fetchFailed "M1" "boom", ⟨[], []⟩, [], false) ∧
    (runAll "out" false
        [(⟨"M1", "f1", "d1"⟩, ⟨.error "boom", .ok (), .ok [[7]] false, .ok [[7]] false⟩)]
        ⟨[], []⟩).sleeps = 0 :=
  ⟨rfl, rfl⟩

/-- C2 (amended).  The pacing delay runs after exactly those completed
entries whose part resolution succeeded: the flag recording that
`time.sleep(0.5)` ran is true iff `fetch_part` returned a part; the
fetch-failure branch skips the sleep via `continue`. -/
theorem c2_pacing_amended (baseDir : String) (skipCad : Bool)
    (spec : PartSpec) (env : EntryEnv) (fs : FS)
    (out : Report × FS × List SyncCall × Bool)
    (h : processEntry baseDir skipCad spec env fs = .ok out) :
    out.2.2.2 = true ↔ ∃ part, env.fetch = .ok part :=
  processEntry_slept_iff baseDir skipCad spec env fs out h

/-- Witness for C2 (amended) at an entry that resolves and downloads
successfully: the sleep flag is true. -/
theorem c2_pacing_amended_witness :
    processEntry "out" false ⟨"M1", "f1", "d1"⟩
        ⟨.ok ⟨"M1", [], some ⟨"DS", "u"⟩, [], none⟩, .ok (),
          .ok [[7]] false, .ok [[7]] false⟩ ⟨[], []⟩
      = .ok (.processed "M1" true .fetched .unavailable,
          ⟨[("out/f1/M1 datasheet.pdf", [7])], ["out/f1", "out/f1"]⟩,
          [⟨"u", "out/f1/M1 datasheet.pdf", false⟩], true) ∧
    ((true : Bool) = true ↔
      ∃ part, (Except.ok ⟨"M1", [], some ⟨"DS", "u"⟩, [], none⟩ :
        Except String PartRecord) = .ok part) :=
  ⟨rfl,
    c2_pacing_amended "out" false ⟨"M1", "f1", "d1"⟩
      ⟨.ok ⟨"M1", [], some ⟨"DS", "u"⟩, [], none⟩, .ok (),
        .ok [[7]] false, .ok [[7]] false⟩ ⟨[], []⟩
      (.processed "M1" true .fetched .unavailable,
        ⟨[("out/f1/M1 datasheet.pdf", [7])], ["out/f1", "out/f1"]⟩,
        [⟨"u", "out/f1/M1 datasheet.pdf", false⟩], true) rfl⟩

/-- C8 counterexample: the claim asserts that some command-line
configuration makes the orchestrator invoke the synchronizer with
`overwrite=true`.  In fact the `argparse` surface has no force re-download
flag and both `download_file` call sites pass the default
`overwrite=false`, so no configuration, catalog, oracle, or filesystem
produces such an invocation. -/
theorem c8_counterexample :
    ¬ ∃ (cfg : Config) (resp : String) (entries : List (PartSpec × EntryEnv))
        (fs : FS) (run : RunResult) (c : SyncCall),
        mainRun cfg resp entries fs = .ok run ∧ c ∈ run.calls ∧ c.overwrite = true := by
  rintro ⟨cfg, resp, entries, fs, run, c, hrun, hc, hov⟩
  have hfalse := mainRun_calls_overwrite_false cfg resp entries fs run hrun c hc
  rw [hfalse] at hov
  cases hov

/-- C8 (amended): the configuration surface (`--output`, `--token`,
`--client-id`, `--client-secret`, `--skip-cad`) contains no flag to force
re-download; under every configuration, every synchronizer invocation made
by the orchestrator passes `overwrite=false` (re-fetching an existing
non-empty asset is impossible from the command line). -/
theorem c8_no_force_redownload_amended (cfg : Config) (resp : String)
    (entries : List (PartSpec × EntryEnv)) (fs : FS) (run : RunResult)
    (h : mainRun cfg resp entries fs = .ok run) :
    run.calls.all (fun c => !c.overwrite) = true := by
  rw [List.all_eq_true]
  intro c hc
  have hfalse := mainRun_calls_overwrite_false cfg resp entries fs run h c hc
  rw [hfalse]
  rfl

/-- Witness for C8 (amended) at a run that actually performs a download:
its single synchronizer call has `overwrite=false`. -/
theorem c8_no_force_redownload_amended_witness :
    mainRun ⟨"out", "tok", "", "", false⟩ ""
        [(⟨"M1", "f1", "d1"⟩,
            ⟨.ok ⟨"M1", [], some ⟨"DS", "u"⟩, [], none⟩, .ok (),
              .ok [[7]] false, .ok [[7]] false⟩)]
        ⟨[], []⟩
      = .ok ⟨[.processed "M1" true .fetched .unavailable], 1,
          ⟨[("out/f1/M1 datasheet.pdf", [7])], ["out/f1", "out/f1", "out"]⟩,
          [⟨"u", "out/f1/M1 datasheet.pdf", false⟩], none⟩ ∧
    ([⟨"u", "out/f1/M1 datasheet.pdf", false⟩] : List SyncCall).all
        (fun c => !c.overwrite) = true :=
  ⟨rfl,
    c8_no_force_redownload_amended ⟨"out", "tok", "", "", false⟩ ""
      [(⟨"M1", "f1", "d1"⟩,
          ⟨.ok ⟨"M1", [], some ⟨"DS", "u"⟩, [], none⟩, .ok (),
            .ok [[7]] false, .ok [[7]] false⟩)]
      ⟨[], []⟩
      ⟨[.processed "M1" true .fetched .unavailable], 1,
        ⟨[("out/f1/M1 datasheet.pdf", [7])], ["out/f1", "out/f1", "out"]⟩,
        [⟨"u", "out/f1/M1 datasheet.pdf", false⟩], none⟩ rfl⟩

end Nexar
